import Mathlib

/-!
Shallow embedding of the core of the Meshtastic broker
(source file Meshtastic_Broker_v2.1.py) together with proofs about its
sanitizing serializer, channel extractor, stats aggregator, broadcast
registry, ingestion loop and packet callback.

Python runtime values are modelled by the mutually inductive type
MeshBroker.PyVal below; machine-level details that the broker never
relies on (hashing, object identity, floating point arithmetic) are not
modelled.  Finite floats carry an integer payload because the broker
only ever classifies floats as NaN/Inf versus finite and forwards them.
-/

namespace MeshBroker

mutual

/-- Model of a Python runtime value as received / produced by the broker.
Dictionaries and attribute sets are association lists in insertion
order, exactly like CPython dicts.  pymsg models a protobuf Message
(its field dictionary as produced by MessageToDict, whether that
conversion succeeds, and its str() text); pyobj models an object
exposing a field set through vars(); pyforeign models any other object
that is not JSON serializable (its str() text). -/
inductive PyVal where
  | pynone
  | pybool (b : Bool)
  | pyint (n : Int)
  | pyfloat (finite : Bool) (val : Int)
  | pystr (s : String)
  | pybytes (bs : List Nat)
  | pylist (xs : PyList)
  | pydict (kvs : PyDict)
  | pyobj (fs : PyFields)
  | pymsg (fs : PyFields) (convOk : Bool) (rep : String)
  | pyforeign (rep : String)

inductive PyList where
  | nil
  | cons (x : PyVal) (xs : PyList)

inductive PyDict where
  | nil
  | cons (k : PyVal) (v : PyVal) (rest : PyDict)

inductive PyFields where
  | nil
  | cons (k : String) (v : PyVal) (rest : PyFields)

end

/-- Python isinstance(v, int): true for int and for bool (bool is an int
subclass in Python), false for everything else, including floats. -/
def isInstInt : PyVal → Bool
  | .pyint _ => true
  | .pybool _ => true
  | _ => false

/-- True when the dictionary key equals the given Python string under
Python equality (a str compares equal only to an equal str). -/
def pyIsStrKey : PyVal → String → Bool
  | .pystr s, k => s == k
  | _, _ => false

/-- Python d[k] lookup / "k in d" membership for a string key k:
first entry whose key equals the string. -/
def PyDict.findStr : PyDict → String → Option PyVal
  | .nil, _ => none
  | .cons k v rest, key => if pyIsStrKey k key then some v else PyDict.findStr rest key

/-- Python d[key] = v for a string key: replaces the value at an
existing equal key in place, otherwise appends the new entry at the
end, exactly like CPython dict assignment. -/
def PyDict.setStr : PyDict → String → PyVal → PyDict
  | .nil, key, v => .cons (.pystr key) v .nil
  | .cons k w rest, key, v =>
      if pyIsStrKey k key then .cons k v rest
      else .cons k w (PyDict.setStr rest key v)

/-- Model of Python str.split(".") (structurally recursive so it
computes in the kernel): splits on every dot, keeping empty pieces,
and the empty string gives one empty piece. -/
def splitDotsAux : List Char → List Char → List String
  | [], acc => [String.mk acc.reverse]
  | c :: rest, acc =>
      if c = '.' then String.mk acc.reverse :: splitDotsAux rest []
      else splitDotsAux rest (c :: acc)

def splitDots (s : String) : List String := splitDotsAux s.data []

/-- The loop body of _get: walk the remaining path segments through
nested dicts; a missing segment or a non-dict current value yields the
default. -/
def getPath (cur : PyVal) (segs : List String) (default : PyVal) : PyVal :=
  match segs with
  | [] => cur
  | k :: rest =>
      match cur with
      | .pydict kvs =>
          match PyDict.findStr kvs k with
          | some v => getPath v rest default
          | none => default
      | _ => default

/-- Source _get (lines 138-145): safe dotted-path access. -/
def _get (d : PyVal) (path : String) (default : PyVal) : PyVal :=
  getPath d (splitDots path) default

/-- Source candidate path list of _extract_channel (lines 156-163). -/
def candidatePaths : List String :=
  ["decoded.header.channelIndex",
   "decoded.header.channel_index",
   "rxMetadata.channel",
   "rx_metadata.channel",
   "decoded.channel",
   "decoded.channel_index"]

/-- The for-loop of _extract_channel: first candidate path whose value
satisfies isinstance(v, int) wins. -/
def extractGo (pkt : PyVal) : List String → Option PyVal
  | [] => none
  | p :: rest =>
      let v := _get pkt p .pynone
      if isInstInt v then some v else extractGo pkt rest

/-- Source _extract_channel (lines 149-168).  Returns the found value
itself (an int, or a bool, since isinstance(True, int) holds). -/
def _extract_channel (pkt : PyVal) : Option PyVal :=
  extractGo pkt candidatePaths

/-- Numeric value of a PyVal under Python's numeric equality, when it
is an int or a bool (True == 1, False == 0).  Used for dict-key
equality of the by-channel counters, whose keys are only ever values
accepted by isinstance(v, int). -/
def pyNum? : PyVal → Option Int
  | .pyint n => some n
  | .pybool b => some (if b then 1 else 0)
  | _ => none

/-- Python == as used for dict keys, restricted to the key universe of
the by-channel table: ints and bools compare by numeric value (so True
collides with 1), anything else compares structurally. -/
def pyKeyEq (a b : PyVal) : Bool :=
  match pyNum? a, pyNum? b with
  | some m, some k => m == k
  | some _, _ => false
  | none, some _ => false
  | none, none =>
      match a, b with
      | .pystr s, .pystr t => s == t
      | _, _ => false

/-- Python d.get(k, 0)-style lookup in the by-channel counter dict:
value of the first Python-equal key. -/
def dictGet : List (PyVal × Nat) → PyVal → Option Nat
  | [], _ => none
  | (k', v') :: rest, k => if pyKeyEq k' k then some v' else dictGet rest k

/-- Python d[k] = v on the by-channel counter dict: update the value at
the first Python-equal key, keeping the stored key object, otherwise
append a new entry. -/
def dictSet (l : List (PyVal × Nat)) (k : PyVal) (v : Nat) : List (PyVal × Nat) :=
  match l with
  | [] => [(k, v)]
  | (k', v') :: rest =>
      if pyKeyEq k' k then (k', v) :: rest else (k', v') :: dictSet rest k v

/-- Global stats state: _total_packets and _by_channel (lines 66-67). -/
structure Stats where
  total : Nat
  by_channel : List (PyVal × Nat)

/-- Model of pkt.get("meta", some_default): raises AttributeError when pkt is
not a dict. -/
def pyGetAttrGet (d : PyVal) (key : String) (default : PyVal) : Except String PyVal :=
  match d with
  | .pydict kvs => .ok ((PyDict.findStr kvs key).getD default)
  | _ => .error "AttributeError: object has no attribute get"

def optToPy : Option PyVal → PyVal
  | some v => v
  | none => .pynone

/-- The channel value read by _inc_stats_from_packet (line 190):
pkt.get("meta", empty).get("channelIndex", _extract_channel(pkt)).
The fallback default _extract_channel(pkt) is evaluated eagerly,
mirroring Python argument evaluation; an Optional None becomes
Python None. -/
def incChannelOf (pkt : PyVal) : Except String PyVal := do
  let meta ← pyGetAttrGet pkt "meta" (.pydict .nil)
  pyGetAttrGet meta "channelIndex" (optToPy (_extract_channel pkt))

/-- Source _inc_stats_from_packet (lines 187-194): bumps total, and the
per-channel counter when the channel value is isinstance(v, int).  An
AttributeError from the channel read propagates before any counter
changes (the caller _pubsub_callback swallows it). -/
def _inc_stats_from_packet (pkt : PyVal) (st : Stats) : Except String Stats :=
  match incChannelOf pkt with
  | .error e => .error e
  | .ok ch =>
      .ok { total := st.total + 1,
            by_channel :=
              if isInstInt ch then
                dictSet st.by_channel ch ((dictGet st.by_channel ch).getD 0 + 1)
              else st.by_channel }

/-- Source _get_stats (lines 196-199) as a PyVal snapshot object. -/
def statsToPy (st : Stats) : PyVal :=
  .pydict (.cons (.pystr "total") (.pyint st.total)
    (.cons (.pystr "by_channel")
      (.pydict (st.by_channel.foldr (fun e acc => PyDict.cons e.1 (.pyint e.2) acc) .nil))
      .nil))

/-- Python line.rstrip of newline characters, at the character-list
level: drop every trailing newline. -/
def rstripNL (l : List Char) : List Char :=
  (l.reverse.dropWhile (fun c => c = '\n')).reverse

/-- The byte payload built by _safe_send_line (line 117):
(line.rstrip newline) + one newline.  UTF-8 encoding is left implicit:
equal strings encode to equal byte sequences. -/
def sendLineData (line : String) : String :=
  String.mk (rstripNL line.data ++ ['\n'])

/-- One write pass of _broadcast_json (lines 127-130): attempt the line
on every registered connection in order, collecting the failing ones in
order into the drop list.  Connections are identified by Nat handles;
ok c tells whether the write to c succeeds during this call. -/
def broadcastPass (ok : Nat → Bool) (line : String) :
    List Nat → List (Nat × String) × List Nat
  | [] => ([], [])
  | c :: rest =>
      let r := broadcastPass ok line rest
      ((c, sendLineData line) :: r.1, if ok c then r.2 else c :: r.2)

/-- Source _broadcast_json (lines 123-136) over an abstract serialized
line: returns the list of attempted sends (connection, payload) in pass
order, and the registry after the post-pass removals
(list.remove of each dropped connection; a ValueError is swallowed). -/
def broadcastLine (clients : List Nat) (ok : Nat → Bool) (line : String) :
    List (Nat × String) × List Nat :=
  let r := broadcastPass ok line clients
  (r.1, r.2.foldl (fun acc d => acc.erase d) clients)

/-- Registry removal as performed in BrokerTCPHandler.handle
(lines 221-225): list.remove of the first occurrence, with ValueError
(connection already absent) swallowed. -/
def unregister (clients : List Nat) (s : Nat) : List Nat :=
  clients.erase s

-- ------------------------- Ingestion loop model -------------------------

/-- Exception classes that the ingestion loop can catch: the
distinguished MeshInterfaceError versus any other Exception. -/
inductive PyExc where
  | meshInterfaceError (msg : String)
  | otherError (msg : String)

/-- Python str(e) of a caught exception. -/
def PyExc.text : PyExc → String
  | .meshInterfaceError m => m
  | .otherError m => m

/-- Observable actions of one ingestion-loop iteration, in order:
broadcasts of (pre-serialization) objects and sleeps.  Durations are in
tenths of a time unit, so 5 is the 0.5 poll sleep and 30 the 3.0
backoff. -/
inductive Emit where
  | broadcast (obj : PyVal)
  | sleep (tenths : Nat)

/-- The connected announcement (line 284). -/
def statusConnected (host : String) : PyVal :=
  .pydict (.cons (.pystr "type") (.pystr "status")
    (.cons (.pystr "msg") (.pystr "connected")
      (.cons (.pystr "host") (.pystr host) .nil)))

/-- The heartbeat status object (line 290). -/
def statusHeartbeat (host : String) (st : Stats) : PyVal :=
  .pydict (.cons (.pystr "type") (.pystr "status")
    (.cons (.pystr "msg") (.pystr "heartbeat")
      (.cons (.pystr "host") (.pystr host)
        (.cons (.pystr "stats") (statsToPy st) .nil))))

/-- The priming status object (line 268). -/
def statusPriming (host : String) (st : Stats) : PyVal :=
  .pydict (.cons (.pystr "type") (.pystr "status")
    (.cons (.pystr "msg") (.pystr "priming")
      (.cons (.pystr "host") (.pystr host)
        (.cons (.pystr "stats") (statsToPy st) .nil))))

/-- The connect_error status object (line 297).  Note: no host, no
stats field. -/
def statusConnectError (m : String) : PyVal :=
  .pydict (.cons (.pystr "type") (.pystr "status")
    (.cons (.pystr "msg") (.pystr ("connect_error: " ++ m)) .nil))

/-- The unexpected_error status object (line 302).  Note: no host, no
stats field. -/
def statusUnexpectedError (m : String) : PyVal :=
  .pydict (.cons (.pystr "type") (.pystr "status")
    (.cons (.pystr "msg") (.pystr ("unexpected_error: " ++ m)) .nil))

/-- The status object broadcast by the except clause that catches e
(lines 296-305). -/
def statusError : PyExc → PyVal
  | .meshInterfaceError m => statusConnectError m
  | .otherError m => statusUnexpectedError m

/-- Loop-visible mutable state: whether _interface is live, the local
last_hb, and the global _last_priming, clock values in tenths. -/
structure LoopSt where
  interfaceUp : Bool
  lastHb : Nat
  lastPriming : Nat

/-- Source _priming_tick (lines 258-268): emit the priming status and
update _last_priming when at least 60 time units have passed. -/
def primingTick (host : String) (now : Nat) (stats : Stats) (lastPriming : Nat) :
    Nat × List Emit :=
  if now - lastPriming < 600 then (lastPriming, [])
  else (now, [Emit.broadcast (statusPriming host stats)])

/-- The try-block of one iteration of _connect_interface_loop
(lines 277-294).  connectRes is the outcome of the
TCPInterface(hostname=host) construction, the only raising operation in
the block; it is consulted only when no interface is live.  On a raise,
the partial state and emissions produced before the raise are returned
in the error (nothing has been emitted or changed at that point). -/
def loopTry (host : String) (now : Nat) (stats : Stats)
    (connectRes : Except PyExc Unit) (s : LoopSt) :
    Except (PyExc × LoopSt × List Emit) (LoopSt × List Emit) :=
  match (if s.interfaceUp then Except.ok (s, ([] : List Emit))
         else match connectRes with
           | .error e => .error e
           | .ok _ => .ok ({ s with interfaceUp := true },
               [Emit.broadcast (statusConnected host)])) with
  | .error e => .error (e, s, [])
  | .ok (s1, em1) =>
      let hb := if 50 ≤ now - s1.lastHb then
          ({ s1 with lastHb := now }, [Emit.broadcast (statusHeartbeat host stats)])
        else (s1, [])
      let pr := primingTick host now stats hb.1.lastPriming
      .ok ({ hb.1 with lastPriming := pr.1 },
           em1 ++ hb.2 ++ pr.2 ++ [Emit.sleep 5])

/-- One full iteration of _connect_interface_loop: the try block with
its two except clauses (lines 296-305), which broadcast the error
status and back off 3.0 before the loop continues. -/
def loopIter (host : String) (now : Nat) (stats : Stats)
    (connectRes : Except PyExc Unit) (s : LoopSt) : LoopSt × List Emit :=
  match loopTry host now stats connectRes s with
  | .ok r => r
  | .error (e, s1, em) => (s1, em ++ [Emit.broadcast (statusError e), Emit.sleep 30])

/-- The while _should_run loop (line 276) over a finite schedule of
iteration environments (clock reading, stats snapshot, connect
outcome); the schedule length is the number of iterations until the
shutdown flag is cleared. -/
def runLoop (host : String) :
    List (Nat × Stats × Except PyExc Unit) → LoopSt → LoopSt × List Emit
  | [], s => (s, [])
  | (now, stats, connectRes) :: rest, s =>
      let r1 := loopIter host now stats connectRes s
      let r2 := runLoop host rest r1.1
      (r2.1, r1.2 ++ r2.2)

-- ------------------------- Packet callback -------------------------

/-- The mutation applied to the packet by _pubsub_callback
(lines 243-246): compute the channel, replace meta by a fresh dict when
it is missing or not a dict, then set meta.channelIndex.  On a non-dict
packet the subscript assignment raises before any mutation (the
exception is swallowed by the callback), so the packet is returned
unchanged. -/
def callbackMutate (pkt : PyVal) : PyVal :=
  match pkt with
  | .pydict kvs =>
      let ch := optToPy (_extract_channel pkt)
      let base : PyDict :=
        match PyDict.findStr kvs "meta" with
        | some (.pydict m) => m
        | _ => .nil
      .pydict (PyDict.setStr kvs "meta"
        (.pydict (PyDict.setStr base "channelIndex" ch)))
  | other => other

/-- Source _pubsub_callback (lines 237-256): mutate the packet, update
the stats from the mutated packet, and broadcast a packet-type object
holding the mutated packet.  Any exception is swallowed (then nothing
is broadcast and the stats are unchanged).  Returns (packet after the
call, stats after the call, broadcast object if any). -/
def _pubsub_callback (pkt : PyVal) (st : Stats) : PyVal × Stats × Option PyVal :=
  match pkt with
  | .pydict _ =>
      let pkt1 := callbackMutate pkt
      match _inc_stats_from_packet pkt1 st with
      | .ok st1 =>
          (pkt1, st1, some (.pydict (.cons (.pystr "type") (.pystr "packet")
            (.cons (.pystr "packet") pkt1 .nil))))
      | .error _ => (pkt1, st, none)
  | _ => (pkt, st, none)

-- ------------------------- Sanitizer / serializer -------------------------

/-- Lowercase hexadecimal digit of a value below 16. -/
def hexDigit (n : Nat) : Char :=
  "0123456789abcdef".data.getD n '0'

/-- Characters of Python bytes.hex(): two lowercase digits per byte,
high nibble first. -/
def bytesHexChars : List Nat → List Char
  | [] => []
  | b :: rest => hexDigit (b / 16) :: hexDigit (b % 16) :: bytesHexChars rest

/-- Python bytes.hex() / bytearray.hex(). -/
def bytesHex (bs : List Nat) : String :=
  String.mk (bytesHexChars bs)

def isLowerHexDigit (c : Char) : Bool :=
  ('0' ≤ c && c ≤ '9') || ('a' ≤ c && c ≤ 'f')

mutual

/-- Model of the Python builtin str() on broker values, used by
_sanitize to coerce dict keys (and by the protobuf / object
fallbacks).  The exact text of composite renderings is a model of the
builtin; the broker only ever relies on the result being a string. -/
def pyStrOf : PyVal → String
  | .pynone => "None"
  | .pybool b => if b then "True" else "False"
  | .pyint n => toString n
  | .pyfloat fin v => if fin then toString v ++ ".0" else "nan"
  | .pystr s => s
  | .pybytes bs => "b" ++ bytesHex bs
  | .pylist xs => "[" ++ pyStrList xs ++ "]"
  | .pydict kvs => "\x7b" ++ pyStrDict kvs ++ "\x7d"
  | .pyobj _ => "<object>"
  | .pymsg _ _ rep => rep
  | .pyforeign rep => rep

def pyStrList : PyList → String
  | .nil => ""
  | .cons x .nil => pyStrOf x
  | .cons x xs => pyStrOf x ++ ", " ++ pyStrList xs

def pyStrDict : PyDict → String
  | .nil => ""
  | .cons k v .nil => pyStrOf k ++ ": " ++ pyStrOf v
  | .cons k v rest => pyStrOf k ++ ": " ++ pyStrOf v ++ ", " ++ pyStrDict rest

end

mutual

/-- A JSON document tree as written by json.dumps.  jnonfinite stands
for the NaN / Infinity tokens that json.dumps emits for non-finite
floats (allow_nan defaults to True): they do not raise, but the
resulting text is not valid JSON, which JVal.valid records. -/
inductive JVal where
  | jnull
  | jbool (b : Bool)
  | jint (n : Int)
  | jfloat (m : Int)
  | jnonfinite
  | jstr (s : String)
  | jarr (xs : JArr)
  | jobj (kvs : JObj)

inductive JArr where
  | nil
  | cons (x : JVal) (xs : JArr)

inductive JObj where
  | nil
  | cons (k : String) (v : JVal) (rest : JObj)

end

mutual

/-- A dumped tree is valid JSON iff it contains no NaN / Infinity
token. -/
def JVal.valid : JVal → Bool
  | .jnonfinite => false
  | .jarr xs => JArr.valid xs
  | .jobj kvs => JObj.valid kvs
  | _ => true

def JArr.valid : JArr → Bool
  | .nil => true
  | .cons x xs => JVal.valid x && JArr.valid xs

def JObj.valid : JObj → Bool
  | .nil => true
  | .cons _ v rest => JVal.valid v && JObj.valid rest

end

/-- JSON string escaping as json.dumps with ensure_ascii=False: the
two-character escapes, u-escapes for remaining control characters,
everything else verbatim. -/
def escapeChar (c : Char) : List Char :=
  if c = '"' then ['\\', '"']
  else if c = '\\' then ['\\', '\\']
  else if c = '\n' then ['\\', 'n']
  else if c = '\r' then ['\\', 'r']
  else if c = '\t' then ['\\', 't']
  else if c.toNat = 8 then ['\\', 'b']
  else if c.toNat = 12 then ['\\', 'f']
  else if c.toNat < 32 then
    ['\\', 'u', '0', '0', hexDigit (c.toNat / 16), hexDigit (c.toNat % 16)]
  else [c]

def escapeChars : List Char → List Char
  | [] => []
  | c :: rest => escapeChar c ++ escapeChars rest

def escapeStr (s : String) : String :=
  String.mk (escapeChars s.data)

mutual

/-- Text produced by json.dumps for a dumped tree, with the compact
separators of the source (comma and colon, no spaces) and
ensure_ascii=False. -/
def renderJ : JVal → String
  | .jnull => "null"
  | .jbool b => if b then "true" else "false"
  | .jint n => toString n
  | .jfloat m => toString m ++ ".0"
  | .jnonfinite => "NaN"
  | .jstr s => "\"" ++ escapeStr s ++ "\""
  | .jarr xs => "[" ++ renderArr xs ++ "]"
  | .jobj kvs => "\x7b" ++ renderObj kvs ++ "\x7d"

def renderArr : JArr → String
  | .nil => ""
  | .cons x .nil => renderJ x
  | .cons x xs => renderJ x ++ "," ++ renderArr xs

def renderObj : JObj → String
  | .nil => ""
  | .cons k v .nil => "\"" ++ escapeStr k ++ "\":" ++ renderJ v
  | .cons k v rest => "\"" ++ escapeStr k ++ "\":" ++ renderJ v ++ "," ++ renderObj rest

end

/-- Coercion json.dumps applies to dict keys: str kept, bool / int /
float / None rendered; any other key raises TypeError. -/
def jsonKeyCoe : PyVal → Except String String
  | .pystr s => .ok s
  | .pybool b => .ok (if b then "true" else "false")
  | .pyint n => .ok (toString n)
  | .pyfloat fin v => .ok (if fin then toString v ++ ".0" else "NaN")
  | .pynone => .ok "null"
  | _ => .error "keys must be str, int, float, bool or None"

mutual

/-- Model of json.dumps up to text rendering: produces the dumped tree,
or the TypeError text for a value json cannot serialize.  Non-finite
floats do not raise (allow_nan=True) but dump to an invalid token. -/
def dumps : PyVal → Except String JVal
  | .pynone => .ok .jnull
  | .pybool b => .ok (.jbool b)
  | .pyint n => .ok (.jint n)
  | .pyfloat fin v => .ok (if fin then .jfloat v else .jnonfinite)
  | .pystr s => .ok (.jstr s)
  | .pybytes _ => .error "Object of type bytes is not JSON serializable"
  | .pylist xs => (dumpsArr xs).map .jarr
  | .pydict kvs => (dumpsObj kvs).map .jobj
  | .pyobj _ => .error "Object is not JSON serializable"
  | .pymsg _ _ _ => .error "Object is not JSON serializable"
  | .pyforeign _ => .error "Object is not JSON serializable"

def dumpsArr : PyList → Except String JArr
  | .nil => .ok .nil
  | .cons x xs => do
      let j ← dumps x
      let js ← dumpsArr xs
      .ok (.cons j js)

def dumpsObj : PyDict → Except String JObj
  | .nil => .ok .nil
  | .cons k v rest => do
      let ks ← jsonKeyCoe k
      let jv ← dumps v
      let jrest ← dumpsObj rest
      .ok (.cons ks jv jrest)

end

mutual

/-- Source _sanitize (lines 74-103), first matching rule wins:
bytes to lowercase hex; protobuf Message to its field dict (sanitized;
string keys are fixed points of str after sanitization) or the
_proto_repr fallback dict when the conversion raises; dict with keys
coerced through str of their sanitized form; list / tuple / set to a
sanitized list; non-finite float to None; object with a __dict__ to
its sanitized field dict; everything else unchanged. -/
def _sanitize : PyVal → PyVal
  | .pybytes bs => .pystr (bytesHex bs)
  | .pymsg fs convOk rep =>
      if convOk then .pydict (sanitizeFieldsDict fs)
      else .pydict (.cons (.pystr "_proto_repr") (.pystr rep) .nil)
  | .pydict kvs => .pydict (sanitizeDict kvs)
  | .pylist xs => .pylist (sanitizeList xs)
  | .pyfloat fin v => if fin then .pyfloat fin v else .pynone
  | .pyobj fs => .pydict (sanitizeFieldsDict fs)
  | other => other

def sanitizeList : PyList → PyList
  | .nil => .nil
  | .cons x xs => .cons (_sanitize x) (sanitizeList xs)

def sanitizeDict : PyDict → PyDict
  | .nil => .nil
  | .cons k v rest =>
      .cons (.pystr (pyStrOf (_sanitize k))) (_sanitize v) (sanitizeDict rest)

def sanitizeFieldsDict : PyFields → PyDict
  | .nil => .nil
  | .cons k v rest => .cons (.pystr k) (_sanitize v) (sanitizeFieldsDict rest)

end

/-- The fallback object built by the except clause of _safe_json_dumps
(line 110). -/
def serializationErrorObj (e : String) : JVal :=
  .jobj (.cons "type" (.jstr "status")
    (.cons "msg" (.jstr ("serialization_error: " ++ e)) .nil))

/-- Source _safe_json_dumps (lines 105-110): dump the sanitized value;
if that raises, dump the diagnostic status object instead.  Total by
construction: the model never raises. -/
def _safe_json_dumps (v : PyVal) : String :=
  match dumps (_sanitize v) with
  | .ok j => renderJ j
  | .error e => renderJ (serializationErrorObj e)

/-- Source _broadcast_json (lines 123-136) on an arbitrary object:
serialize once, then the write pass and the post-pass removals. -/
def _broadcast_json (obj : PyVal) (clients : List Nat) (ok : Nat → Bool) :
    List (Nat × String) × List Nat :=
  broadcastLine clients ok (_safe_json_dumps obj)

-- ------------------------- Concrete events used by the claims -------------------------

/-- Python obj["k"] read on a broadcast object, none when absent. -/
def pyLookup (v : PyVal) (k : String) : Option PyVal :=
  match v with
  | .pydict kvs => PyDict.findStr kvs k
  | _ => none

/-- Event with decoded.header.channelIndex = 5 and a conflicting
rxMetadata.channel = 9 at a lower-priority path. -/
def c2pktA : PyVal :=
  .pydict (.cons (.pystr "decoded")
    (.pydict (.cons (.pystr "header")
      (.pydict (.cons (.pystr "channelIndex") (.pyint 5) .nil)) .nil))
    (.cons (.pystr "rxMetadata")
      (.pydict (.cons (.pystr "channel") (.pyint 9) .nil)) .nil))

/-- Event where every candidate path is missing, non-mapping or
non-integer. -/
def c2pktB : PyVal :=
  .pydict (.cons (.pystr "decoded")
    (.pydict (.cons (.pystr "header") (.pystr "oops")
      (.cons (.pystr "channel") (.pystr "3") .nil)))
    (.cons (.pystr "rx_metadata") (.pyint 4) .nil))

/-- Event whose meta.channelIndex is 7 although no extractor candidate
path resolves. -/
def c3pkt : PyVal :=
  .pydict (.cons (.pystr "meta")
    (.pydict (.cons (.pystr "channelIndex") (.pyint 7) .nil)) .nil)

/-- Event with decoded.header.channelIndex = True. -/
def c10pkt : PyDict :=
  .cons (.pystr "decoded")
    (.pydict (.cons (.pystr "header")
      (.pydict (.cons (.pystr "channelIndex") (.pybool true) .nil)) .nil)) .nil

/-- Event whose meta field holds the non-mapping value 5. -/
def c8pkt : PyVal :=
  .pydict (.cons (.pystr "meta") (.pyint 5) (.cons (.pystr "x") (.pyint 1) .nil))

-- ------------------------- Helper lemmas -------------------------

theorem hexDigit_isLower (n : Nat) (h : n < 16) : isLowerHexDigit (hexDigit n) = true := by
  interval_cases n <;> decide

theorem bytesHexChars_length (bs : List Nat) :
    (bytesHexChars bs).length = 2 * bs.length := by
  induction bs with
  | nil => rfl
  | cons b rest ih => simp [bytesHexChars, ih]; omega

theorem bytesHexChars_mem (bs : List Nat) (h : ∀ b ∈ bs, b < 256) :
    ∀ c ∈ bytesHexChars bs, isLowerHexDigit c = true := by
  induction bs with
  | nil => intro c hc; simp [bytesHexChars] at hc
  | cons b rest ih =>
      intro c hc
      have hb : b < 256 := h b (by simp)
      simp only [bytesHexChars, List.mem_cons] at hc
      rcases hc with h1 | h2 | h3
      · subst h1
        exact hexDigit_isLower _ ((Nat.div_lt_iff_lt_mul (by norm_num)).mpr hb)
      · subst h2
        exact hexDigit_isLower _ (Nat.mod_lt _ (by norm_num))
      · exact ih (fun x hx => h x (by simp [hx])) c h3

theorem extractGo_eq_none (pkt : PyVal) (ps : List String)
    (h : ∀ p ∈ ps, isInstInt (_get pkt p .pynone) = false) :
    extractGo pkt ps = none := by
  induction ps with
  | nil => rfl
  | cons p rest ih =>
      have hp : isInstInt (_get pkt p .pynone) = false := h p (by simp)
      simp only [extractGo, hp, Bool.false_eq_true, if_false]
      exact ih (fun q hq => h q (by simp [hq]))

theorem beqComm {α} [BEq α] [LawfulBEq α] (x y : α) : (x == y) = (y == x) := by
  by_cases h : x = y
  · simp [h]
  · rw [beq_eq_false_iff_ne.mpr h, beq_eq_false_iff_ne.mpr (Ne.symm h)]

theorem pyKeyEq_symm (a b : PyVal) : pyKeyEq a b = pyKeyEq b a := by
  unfold pyKeyEq
  cases ha : pyNum? a <;> cases hb : pyNum? b
  · cases a <;> cases b <;> first | rfl | exact beqComm _ _
  · rfl
  · rfl
  · exact beqComm _ _

theorem pyKeyEq_trans (a b c : PyVal) (h1 : pyKeyEq a b = true)
    (h2 : pyKeyEq b c = true) : pyKeyEq a c = true := by
  unfold pyKeyEq at h1 h2 ⊢
  cases ha : pyNum? a <;> cases hb : pyNum? b <;> cases hc : pyNum? c
  · cases a <;> cases b <;> cases c <;> simp_all
  all_goals simp_all

theorem pyKeyEq_refl_of_int (k : PyVal) (h : isInstInt k = true) :
    pyKeyEq k k = true := by
  cases k <;> simp_all [isInstInt, pyKeyEq, pyNum?]

theorem dictGet_dictSet_self (l : List (PyVal × Nat)) (k : PyVal) (v : Nat)
    (hk : pyKeyEq k k = true) : dictGet (dictSet l k v) k = some v := by
  induction l with
  | nil => simp [dictSet, dictGet, hk]
  | cons e rest ih =>
      obtain ⟨k', v'⟩ := e
      by_cases hc : pyKeyEq k' k = true
      · simp [dictSet, dictGet, hc]
      · simp only [Bool.not_eq_true] at hc
        simp [dictSet, dictGet, hc, ih]

theorem dictGet_dictSet_other (l : List (PyVal × Nat)) (k0 k : PyVal) (v : Nat)
    (h : pyKeyEq k0 k = false) : dictGet (dictSet l k v) k0 = dictGet l k0 := by
  induction l with
  | nil =>
      have hk : pyKeyEq k k0 = false := by rw [pyKeyEq_symm]; exact h
      simp [dictSet, dictGet, hk]
  | cons e rest ih =>
      obtain ⟨k', v'⟩ := e
      by_cases hc : pyKeyEq k' k = true
      · have hck0 : pyKeyEq k' k0 = false := by
          by_contra hcon
          simp only [Bool.not_eq_false] at hcon
          have ht : pyKeyEq k0 k = true :=
            pyKeyEq_trans k0 k' k (by rw [pyKeyEq_symm]; exact hcon) hc
          simp [ht] at h
        simp [dictSet, dictGet, hc, hck0]
      · simp only [Bool.not_eq_true] at hc
        by_cases hck0 : pyKeyEq k' k0 = true <;>
          simp [dictSet, dictGet, hc, hck0, ih]

theorem dictGet_none_dictSet_append (l : List (PyVal × Nat)) (k : PyVal) (v : Nat)
    (h : dictGet l k = none) : dictSet l k v = l ++ [(k, v)] := by
  induction l with
  | nil => simp [dictSet]
  | cons e rest ih =>
      obtain ⟨k', v'⟩ := e
      by_cases hc : pyKeyEq k' k = true
      · simp [dictGet, hc] at h
      · simp only [Bool.not_eq_true] at hc
        simp only [dictGet, hc, Bool.false_eq_true, if_false] at h
        simp [dictSet, hc, ih h]

theorem findStr_setStr_self : ∀ (d : PyDict) (key : String) (v : PyVal),
    PyDict.findStr (PyDict.setStr d key v) key = some v
  | .nil, key, v => by simp [PyDict.setStr, PyDict.findStr, pyIsStrKey]
  | .cons k w rest, key, v => by
      by_cases hc : pyIsStrKey k key = true
      · simp [PyDict.setStr, PyDict.findStr, hc]
      · simp only [Bool.not_eq_true] at hc
        simp [PyDict.setStr, PyDict.findStr, hc, findStr_setStr_self rest key v]

theorem findStr_setStr_other : ∀ (d : PyDict) (key key' : String) (v : PyVal),
    key ≠ key' →
    PyDict.findStr (PyDict.setStr d key v) key' = PyDict.findStr d key'
  | .nil, key, key', v, h => by
      simp [PyDict.setStr, PyDict.findStr, pyIsStrKey, beq_eq_false_iff_ne.mpr h]
  | .cons k w rest, key, key', v, h => by
      by_cases hc : pyIsStrKey k key = true
      · have hk' : pyIsStrKey k key' = false := by
          cases k <;> simp_all [pyIsStrKey]
        simp [PyDict.setStr, PyDict.findStr, hc, hk']
      · simp only [Bool.not_eq_true] at hc
        by_cases hk' : pyIsStrKey k key' = true <;>
          simp [PyDict.setStr, PyDict.findStr, hc, hk',
            findStr_setStr_other rest key key' v h]

-- ------------------------- Claim C9 -------------------------

/-- C9: for every byte sequence of length N, sanitize turns it into a
hexadecimal string of length exactly 2N containing only lowercase hex
digits. -/
theorem c9_bytes_to_lower_hex (bs : List Nat) (h : ∀ b ∈ bs, b < 256) :
    _sanitize (.pybytes bs) = .pystr (bytesHex bs) ∧
    (bytesHex bs).length = 2 * bs.length ∧
    ∀ c ∈ (bytesHex bs).data, isLowerHexDigit c = true := by
  refine ⟨rfl, ?_, ?_⟩
  · show (bytesHexChars bs).length = 2 * bs.length
    exact bytesHexChars_length bs
  · show ∀ c ∈ bytesHexChars bs, isLowerHexDigit c = true
    exact bytesHexChars_mem bs h

theorem c9_witness :
    _sanitize (.pybytes [0, 171, 255]) = .pystr (bytesHex [0, 171, 255]) ∧
    (bytesHex [0, 171, 255]).length = 2 * ([0, 171, 255] : List Nat).length ∧
    ∀ c ∈ (bytesHex [0, 171, 255]).data, isLowerHexDigit c = true :=
  c9_bytes_to_lower_hex [0, 171, 255] (by decide)

-- ------------------------- Claim C2 -------------------------

/-- C2: whenever the dotted path decoded.header.channelIndex resolves
to an integer, extractChannel returns exactly that integer whatever the
lower-priority paths hold; and whenever none of the six candidate paths
resolves to a value satisfying isinstance(v, int), it returns absent. -/
theorem c2_extract_channel_priority (pkt : PyVal) (n : Int) :
    (_get pkt "decoded.header.channelIndex" .pynone = .pyint n →
      _extract_channel pkt = some (.pyint n)) ∧
    ((∀ p ∈ candidatePaths, isInstInt (_get pkt p .pynone) = false) →
      _extract_channel pkt = none) := by
  constructor
  · intro h
    simp [_extract_channel, candidatePaths, extractGo, h, isInstInt]
  · intro h
    exact extractGo_eq_none pkt candidatePaths h

theorem c2_witness :
    _extract_channel c2pktA = some (.pyint 5) ∧ _extract_channel c2pktB = none :=
  ⟨(c2_extract_channel_priority c2pktA 5).1 rfl,
   (c2_extract_channel_priority c2pktB 0).2 (by decide)⟩

-- ------------------------- Claim C3 -------------------------

/-- C3 counterexample: the claim says the increment operation derives
its channel via the section 4.2 extractor and touches a by-channel
entry iff that extractor yields an integer.  On c3pkt the extractor
yields absent, yet the code reads meta.channelIndex first and creates
the by-channel entry for 7, so the claim is false as stated. -/
theorem c3_counterexample :
    _extract_channel c3pkt = none ∧
    _inc_stats_from_packet c3pkt { total := 0, by_channel := [] }
      = .ok { total := 1, by_channel := [(.pyint 7, 1)] } :=
  ⟨rfl, rfl⟩

/-- C3 amended: increment reads the channel from the meta.channelIndex
entry when the event has one (raising before any counting when the
event or its meta value is not a mapping), and falls back to the
section 4.2 extractor otherwise; it then increments total by exactly
one and increments the by-channel counter of exactly that channel by
exactly one iff the value so obtained is an integer (every entry under
a different key is untouched, and the by-channel table is completely
unchanged for a non-integer channel). -/
theorem c3_stats_increment_amended (pkt : PyVal) (st : Stats) :
    (∀ e, incChannelOf pkt = .error e →
       _inc_stats_from_packet pkt st = .error e) ∧
    (∀ ch, incChannelOf pkt = .ok ch →
       ∃ st', _inc_stats_from_packet pkt st = .ok st' ∧
         st'.total = st.total + 1 ∧
         (isInstInt ch = true →
            dictGet st'.by_channel ch
                = some ((dictGet st.by_channel ch).getD 0 + 1) ∧
            ∀ k, pyKeyEq k ch = false →
               dictGet st'.by_channel k = dictGet st.by_channel k) ∧
         (isInstInt ch = false → st'.by_channel = st.by_channel)) := by
  constructor
  · intro e he
    simp [_inc_stats_from_packet, he]
  · intro ch hch
    refine ⟨{ total := st.total + 1,
              by_channel :=
                if isInstInt ch then
                  dictSet st.by_channel ch ((dictGet st.by_channel ch).getD 0 + 1)
                else st.by_channel },
            by simp [_inc_stats_from_packet, hch], rfl, ?_, ?_⟩
    · intro hi
      simp only [hi, if_true]
      constructor
      · exact dictGet_dictSet_self st.by_channel ch _ (pyKeyEq_refl_of_int ch hi)
      · intro k hk
        exact dictGet_dictSet_other st.by_channel k ch _ hk
    · intro hi
      simp [hi]

theorem c3_witness :
    ∃ st', _inc_stats_from_packet c3pkt { total := 4, by_channel := [] } = .ok st' ∧
      st'.total = 4 + 1 ∧
      (isInstInt (.pyint 7) = true →
         dictGet st'.by_channel (.pyint 7)
             = some ((dictGet ({ total := 4, by_channel := [] } : Stats).by_channel (.pyint 7)).getD 0 + 1) ∧
         ∀ k, pyKeyEq k (.pyint 7) = false →
            dictGet st'.by_channel k
                = dictGet ({ total := 4, by_channel := [] } : Stats).by_channel k) ∧
      (isInstInt (.pyint 7) = false →
         st'.by_channel = ({ total := 4, by_channel := [] } : Stats).by_channel) :=
  (c3_stats_increment_amended c3pkt { total := 4, by_channel := [] }).2 (.pyint 7) rfl

-- ------------------------- Claim C5 -------------------------

/-- C5: unregistering a connection twice has the same effect on the
registry as unregistering it once; the model is total, so the second
removal raises no error, and the registry contents are unchanged by
it.  The hypothesis that the registry holds no duplicate handles is an
invariant of the broker: every accepted connection is a fresh socket
object appended exactly once. -/
theorem c5_unregister_idempotent (clients : List Nat) (s : Nat) (h : clients.Nodup) :
    unregister (unregister clients s) s = unregister clients s := by
  unfold unregister
  exact List.erase_of_not_mem h.not_mem_erase

theorem c5_witness :
    unregister (unregister [1, 2, 3] 2) 2 = unregister [1, 2, 3] 2 :=
  c5_unregister_idempotent [1, 2, 3] 2 (by decide)

-- ------------------------- Claim C10 -------------------------

/-- C10: a boolean found at the highest-priority candidate path counts
as a resolved channel because isinstance(True, int) holds in Python:
the extractor returns True itself, True collides with channel key 1
under Python equality, and processing the event through the callback
creates a by-channel entry whose stored key is that boolean (when no
numerically equal key already exists) instead of treating the channel
as absent. -/
theorem c10_bool_channel (kvs : PyDict) (st : Stats)
    (h1 : _get (.pydict kvs) "decoded.header.channelIndex" .pynone = .pybool true)
    (h2 : dictGet st.by_channel (.pybool true) = none) :
    _extract_channel (.pydict kvs) = some (.pybool true) ∧
    pyKeyEq (.pybool true) (.pyint 1) = true ∧
    (PyVal.pybool true, 1) ∈ ((_pubsub_callback (.pydict kvs) st).2.1).by_channel := by
  have hex : _extract_channel (.pydict kvs) = some (.pybool true) := by
    simp [_extract_channel, candidatePaths, extractGo, h1, isInstInt]
  refine ⟨hex, rfl, ?_⟩
  have hch : optToPy (_extract_channel (.pydict kvs)) = .pybool true := by
    rw [hex]; rfl
  obtain ⟨md, hmd⟩ : ∃ md, callbackMutate (.pydict kvs)
      = .pydict (PyDict.setStr kvs "meta"
          (.pydict (PyDict.setStr md "channelIndex" (.pybool true)))) := by
    refine ⟨(match PyDict.findStr kvs "meta" with
             | some (.pydict m) => m
             | _ => .nil), ?_⟩
    simp only [callbackMutate, hch]
  have hinc : incChannelOf (callbackMutate (.pydict kvs)) = .ok (.pybool true) := by
    rw [hmd]
    simp [incChannelOf, pyGetAttrGet, findStr_setStr_self, bind, Except.bind]
  have hrun : _inc_stats_from_packet (callbackMutate (.pydict kvs)) st
      = .ok { total := st.total + 1,
              by_channel := dictSet st.by_channel (.pybool true) 1 } := by
    simp [_inc_stats_from_packet, hinc, isInstInt, h2]
  simp only [_pubsub_callback, hrun]
  rw [dictGet_none_dictSet_append st.by_channel _ 1 h2]
  simp

theorem c10_witness :
    _extract_channel (.pydict c10pkt) = some (.pybool true) ∧
    pyKeyEq (.pybool true) (.pyint 1) = true ∧
    (PyVal.pybool true, 1)
        ∈ ((_pubsub_callback (.pydict c10pkt) { total := 0, by_channel := [] }).2.1).by_channel :=
  c10_bool_channel c10pkt { total := 0, by_channel := [] } rfl rfl

-- ------------------------- Claim C4 -------------------------

theorem broadcastPass_sends (ok : Nat → Bool) (line : String) (cs : List Nat) :
    (broadcastPass ok line cs).1 = cs.map (fun c => (c, sendLineData line)) := by
  induction cs with
  | nil => rfl
  | cons c rest ih => simp [broadcastPass, ih]

theorem broadcastPass_drop (ok : Nat → Bool) (line : String) (cs : List Nat) :
    (broadcastPass ok line cs).2 = cs.filter (fun c => !ok c) := by
  induction cs with
  | nil => rfl
  | cons c rest ih =>
      by_cases hc : ok c = true <;> simp [broadcastPass, List.filter_cons, hc, ih]

theorem foldl_erase_cons_of_not_mem (x : Nat) (ds : List Nat) (h : x ∉ ds) :
    ∀ xs : List Nat,
      ds.foldl (fun acc d => acc.erase d) (x :: xs)
        = x :: ds.foldl (fun acc d => acc.erase d) xs := by
  induction ds with
  | nil => intro xs; rfl
  | cons d ds' ih =>
      intro xs
      have hxd : ¬(x == d) := by
        simp only [List.mem_cons, not_or] at h
        simp [h.1]
      have h' : x ∉ ds' := by
        simp only [List.mem_cons, not_or] at h
        exact h.2
      simp only [List.foldl_cons, List.erase_cons_tail hxd]
      exact ih h' (xs.erase d)

theorem foldl_erase_filter (q : Nat → Bool) (l : List Nat) :
    (l.filter q).foldl (fun acc d => acc.erase d) l = l.filter (fun c => !q c) := by
  induction l with
  | nil => rfl
  | cons x xs ih =>
      by_cases hq : q x = true
      · simp only [List.filter_cons, hq, if_true, List.foldl_cons,
          List.erase_cons_head, Bool.not_true, Bool.false_eq_true, if_false]
        exact ih
      · simp only [Bool.not_eq_true] at hq
        have hx : x ∉ xs.filter q := by
          intro hmem
          exact absurd ((List.mem_filter.mp hmem).2) (by simp [hq])
        simp only [List.filter_cons, hq, Bool.false_eq_true, if_false,
          Bool.not_false, if_true, foldl_erase_cons_of_not_mem x _ hx, ih]

theorem dropWhile_head_not {α} (p : α → Bool) (l : List α) (a : α)
    (h : (l.dropWhile p).head? = some a) : p a = false := by
  induction l with
  | nil => simp [List.dropWhile] at h
  | cons x xs ih =>
      by_cases hx : p x = true
      · rw [List.dropWhile_cons_of_pos hx] at h
        exact ih h
      · simp only [Bool.not_eq_true] at hx
        rw [List.dropWhile_cons_of_neg (by simp [hx])] at h
        simp only [List.head?_cons, Option.some_inj] at h
        rw [← h]; exact hx

theorem rstripNL_no_trailing (l : List Char) :
    (rstripNL l).getLast? ≠ some '\n' := by
  intro h
  unfold rstripNL at h
  rw [List.getLast?_reverse] at h
  have := dropWhile_head_not (fun c => decide (c = '\n')) l.reverse '\n' h
  simp at this

/-- C4: broadcast attempts the identical payload, the serialized line
terminated by exactly one newline, on every connection registered at
call time and in registry order; the post-pass removals delete exactly
the failed connections from the registry.  The sends list containing
every registered connection, including the failing ones, witnesses
that removals happen only after the full write pass. -/
theorem c4_broadcast_uniform_and_prunes (obj : PyVal) (clients : List Nat)
    (ok : Nat → Bool) :
    (_broadcast_json obj clients ok).1
        = clients.map (fun c => (c, sendLineData (_safe_json_dumps obj))) ∧
    (sendLineData (_safe_json_dumps obj)).data
        = rstripNL (_safe_json_dumps obj).data ++ ['\n'] ∧
    (rstripNL (_safe_json_dumps obj).data).getLast? ≠ some '\n' ∧
    (_broadcast_json obj clients ok).2 = clients.filter ok := by
  refine ⟨?_, rfl, rstripNL_no_trailing _, ?_⟩
  · unfold _broadcast_json broadcastLine
    simp [broadcastPass_sends]
  · unfold _broadcast_json broadcastLine
    simp only [broadcastPass_drop, foldl_erase_filter]
    simp [Bool.not_not]

-- ------------------------- Claim C6 -------------------------

/-- C6: when the connect step of an iteration raises, whether the
distinguished interface-error class or any other exception, the
iteration ends by broadcasting one status object carrying the
human-readable message text, sleeping the fixed 3.0 backoff, and the
loop goes on to process every remaining iteration from an unchanged
state: the error neither propagates (the iteration function is total)
nor terminates the loop. -/
theorem c6_loop_error_isolated (host : String) (now : Nat) (stats : Stats)
    (s : LoopSt) (e : PyExc) (rest : List (Nat × Stats × Except PyExc Unit))
    (h : s.interfaceUp = false) :
    loopIter host now stats (.error e) s
      = (s, [Emit.broadcast (statusError e), Emit.sleep 30]) ∧
    pyLookup (statusError e) "type" = some (.pystr "status") ∧
    (∃ m, pyLookup (statusError e) "msg" = some (.pystr m) ∧
       (m = "connect_error: " ++ PyExc.text e ∨
        m = "unexpected_error: " ++ PyExc.text e)) ∧
    runLoop host ((now, stats, .error e) :: rest) s
      = ((runLoop host rest s).1,
         [Emit.broadcast (statusError e), Emit.sleep 30] ++ (runLoop host rest s).2) := by
  have hiter : loopIter host now stats (.error e) s
      = (s, [Emit.broadcast (statusError e), Emit.sleep 30]) := by
    simp [loopIter, loopTry, h]
  refine ⟨hiter, ?_, ?_, ?_⟩
  · cases e <;> rfl
  · cases e with
    | meshInterfaceError m => exact ⟨_, rfl, Or.inl rfl⟩
    | otherError m => exact ⟨_, rfl, Or.inr rfl⟩
  · simp [runLoop, hiter]

theorem c6_witness :
    loopIter "node" 0 { total := 0, by_channel := [] }
        (.error (.meshInterfaceError "refused"))
        { interfaceUp := false, lastHb := 0, lastPriming := 0 }
      = ({ interfaceUp := false, lastHb := 0, lastPriming := 0 },
         [Emit.broadcast (statusError (.meshInterfaceError "refused")), Emit.sleep 30]) ∧
    pyLookup (statusError (.meshInterfaceError "refused")) "type"
      = some (.pystr "status") ∧
    (∃ m, pyLookup (statusError (.meshInterfaceError "refused")) "msg"
        = some (.pystr m) ∧
       (m = "connect_error: " ++ PyExc.text (.meshInterfaceError "refused") ∨
        m = "unexpected_error: " ++ PyExc.text (.meshInterfaceError "refused"))) ∧
    runLoop "node" [(0, { total := 0, by_channel := [] }, .error (.meshInterfaceError "refused"))]
        { interfaceUp := false, lastHb := 0, lastPriming := 0 }
      = ((runLoop "node" [] { interfaceUp := false, lastHb := 0, lastPriming := 0 }).1,
         [Emit.broadcast (statusError (.meshInterfaceError "refused")), Emit.sleep 30]
           ++ (runLoop "node" [] { interfaceUp := false, lastHb := 0, lastPriming := 0 }).2) :=
  c6_loop_error_isolated "node" 0 { total := 0, by_channel := [] }
    { interfaceUp := false, lastHb := 0, lastPriming := 0 }
    (.meshInterfaceError "refused") [] rfl

-- ------------------------- Claim C7 -------------------------

/-- C7 counterexample: a connect_error status line is emitted on the
wire by an iteration whose connect step raises, and that line carries
no host field at all (and no stats), refuting the claim that every
status line carries a host string field. -/
theorem c7_counterexample :
    (loopIter "node" 0 { total := 0, by_channel := [] }
        (.error (.meshInterfaceError "refused"))
        { interfaceUp := false, lastHb := 0, lastPriming := 0 }).2
      = [Emit.broadcast (statusConnectError "refused"), Emit.sleep 30] ∧
    pyLookup (statusConnectError "refused") "type" = some (.pystr "status") ∧
    pyLookup (statusConnectError "refused") "host" = none :=
  ⟨rfl, rfl, rfl⟩

/-- C7 amended: the connected, heartbeat and priming status lines carry
the host string field, with the stats object present exactly on
heartbeat and priming; the connect_error and unexpected_error status
lines carry neither a host field nor a stats field. -/
theorem c7_status_fields_amended (host m : String) (st : Stats) :
    pyLookup (statusConnected host) "host" = some (.pystr host) ∧
    pyLookup (statusConnected host) "stats" = none ∧
    pyLookup (statusHeartbeat host st) "host" = some (.pystr host) ∧
    pyLookup (statusHeartbeat host st) "stats" = some (statsToPy st) ∧
    pyLookup (statusPriming host st) "host" = some (.pystr host) ∧
    pyLookup (statusPriming host st) "stats" = some (statsToPy st) ∧
    pyLookup (statusConnectError m) "host" = none ∧
    pyLookup (statusConnectError m) "stats" = none ∧
    pyLookup (statusUnexpectedError m) "host" = none ∧
    pyLookup (statusUnexpectedError m) "stats" = none :=
  ⟨rfl, rfl, rfl, rfl, rfl, rfl, rfl, rfl, rfl, rfl⟩

-- ------------------------- Claim C8 -------------------------

/-- C8 counterexample: on an event whose meta field holds the
non-mapping value 5, the callback does more than inject the channel tag
at meta.channelIndex: the broadcast packet carries a meta field whose
prior value 5 has been discarded and replaced by a fresh mapping, so
not every field other than the injected tag is unchanged. -/
theorem c8_counterexample :
    pyLookup c8pkt "meta" = some (.pyint 5) ∧
    pyLookup (callbackMutate c8pkt) "meta"
      = some (.pydict (.cons (.pystr "channelIndex") .pynone .nil)) ∧
    (_pubsub_callback c8pkt { total := 0, by_channel := [] }).2.2
      = some (.pydict (.cons (.pystr "type") (.pystr "packet")
          (.cons (.pystr "packet") (callbackMutate c8pkt) .nil))) :=
  ⟨rfl, rfl, rfl⟩

/-- C8 amended: for a mapping event, the callback leaves every field
other than meta unchanged in the broadcast packet; when meta is already
a mapping it only sets its channelIndex entry to the extracted channel
or None, preserving the mapping's other entries; when meta is missing
or not a mapping, the whole meta field is replaced by a fresh mapping
holding only that channelIndex entry; and the broadcast object is a
packet-type object carrying exactly the so-mutated event. -/
theorem c8_callback_frame_amended (kvs : PyDict) (st : Stats) (pkt : PyVal)
    (hp : pkt = .pydict kvs) :
    (∀ k, k ≠ "meta" → pyLookup (callbackMutate pkt) k = pyLookup pkt k) ∧
    (∃ m', pyLookup (callbackMutate pkt) "meta" = some (.pydict m') ∧
       PyDict.findStr m' "channelIndex" = some (optToPy (_extract_channel pkt)) ∧
       (∀ mk, PyDict.findStr kvs "meta" = some (.pydict mk) →
          ∀ k, k ≠ "channelIndex" → PyDict.findStr m' k = PyDict.findStr mk k) ∧
       ((∀ mk, PyDict.findStr kvs "meta" ≠ some (.pydict mk)) →
          m' = .cons (.pystr "channelIndex") (optToPy (_extract_channel pkt)) .nil)) ∧
    (∃ st1, _pubsub_callback pkt st
        = (callbackMutate pkt, st1,
           some (.pydict (.cons (.pystr "type") (.pystr "packet")
             (.cons (.pystr "packet") (callbackMutate pkt) .nil))))) := by
  subst hp
  obtain ⟨md, hmdef, hmd⟩ : ∃ md,
      md = (match PyDict.findStr kvs "meta" with
            | some (.pydict m) => m
            | _ => .nil) ∧
      callbackMutate (.pydict kvs)
        = .pydict (PyDict.setStr kvs "meta"
            (.pydict (PyDict.setStr md "channelIndex"
              (optToPy (_extract_channel (.pydict kvs)))))) :=
    ⟨_, rfl, rfl⟩
  refine ⟨?_, ?_, ?_⟩
  · intro k hk
    rw [hmd]
    show PyDict.findStr (PyDict.setStr kvs "meta" _) k = PyDict.findStr kvs k
    exact findStr_setStr_other kvs "meta" k _ (fun hmk => hk hmk.symm)
  · refine ⟨PyDict.setStr md "channelIndex" (optToPy (_extract_channel (.pydict kvs))),
        ?_, findStr_setStr_self md "channelIndex" _, ?_, ?_⟩
    · rw [hmd]
      show PyDict.findStr (PyDict.setStr kvs "meta" _) "meta" = _
      rw [findStr_setStr_self]
    · intro mk hmk k hk
      have : md = mk := by rw [hmdef, hmk]
      rw [this]
      exact findStr_setStr_other mk "channelIndex" k _ (fun h => hk h.symm)
    · intro hno
      have : md = .nil := by
        rw [hmdef]
        cases hfind : PyDict.findStr kvs "meta" with
        | none => rfl
        | some v =>
            cases v with
            | pydict mk => exact absurd hfind (hno mk)
            | pynone => rfl
            | pybool b => rfl
            | pyint n => rfl
            | pyfloat f x => rfl
            | pystr s => rfl
            | pybytes bs => rfl
            | pylist xs => rfl
            | pyobj fs => rfl
            | pymsg fs c r => rfl
            | pyforeign r => rfl
      rw [this]
      rfl
  · have hincch : incChannelOf (callbackMutate (.pydict kvs))
        = .ok (optToPy (_extract_channel (.pydict kvs))) := by
      rw [hmd]
      simp [incChannelOf, pyGetAttrGet, findStr_setStr_self, bind, Except.bind]
    refine ⟨{ total := st.total + 1,
              by_channel :=
                if isInstInt (optToPy (_extract_channel (.pydict kvs))) then
                  dictSet st.by_channel (optToPy (_extract_channel (.pydict kvs)))
                    ((dictGet st.by_channel
                        (optToPy (_extract_channel (.pydict kvs)))).getD 0 + 1)
                else st.by_channel }, ?_⟩
    simp only [_pubsub_callback, _inc_stats_from_packet, hincch]

theorem c8_witness :
    pyLookup (callbackMutate c8pkt) "x" = pyLookup c8pkt "x" ∧
    (∃ m', pyLookup (callbackMutate c8pkt) "meta" = some (.pydict m') ∧
       PyDict.findStr m' "channelIndex" = some (optToPy (_extract_channel c8pkt))) := by
  have h := c8_callback_frame_amended
    (.cons (.pystr "meta") (.pyint 5) (.cons (.pystr "x") (.pyint 1) .nil))
    { total := 0, by_channel := [] } c8pkt rfl
  obtain ⟨m', hm1, hm2, _, _⟩ := h.2.1
  exact ⟨h.1 "x" (by decide), m', hm1, hm2⟩

-- ------------------------- Claim C1 -------------------------

mutual

/-- Sanitized values on which json.dumps succeeds dump to trees free of
NaN / Infinity tokens: sanitization replaced every non-finite float by
None before encoding. -/
theorem dumps_sanitize_valid : ∀ (v : PyVal) (j : JVal),
    dumps (_sanitize v) = .ok j → JVal.valid j = true
  | .pynone, j, h => by simp_all [_sanitize, dumps]; exact h ▸ rfl
  | .pybool b, j, h => by simp_all [_sanitize, dumps]; exact h ▸ rfl
  | .pyint n, j, h => by simp_all [_sanitize, dumps]; exact h ▸ rfl
  | .pystr s, j, h => by simp_all [_sanitize, dumps]; exact h ▸ rfl
  | .pybytes bs, j, h => by simp_all [_sanitize, dumps]; exact h ▸ rfl
  | .pyforeign rep, j, h => by simp_all [_sanitize, dumps]
  | .pyfloat fin val, j, h => by
      cases fin <;> simp_all [_sanitize, dumps] <;> exact h ▸ rfl
  | .pylist xs, j, h => by
      simp only [_sanitize, dumps] at h
      cases hr : dumpsArr (sanitizeList xs) with
      | ok js =>
          rw [hr] at h
          simp only [Except.map, Except.ok.injEq] at h
          subst h
          simpa [JVal.valid] using dumpsArr_sanitize_valid xs js hr
      | error e => rw [hr] at h; simp [Except.map] at h
  | .pydict kvs, j, h => by
      simp only [_sanitize, dumps] at h
      cases hr : dumpsObj (sanitizeDict kvs) with
      | ok jo =>
          rw [hr] at h
          simp only [Except.map, Except.ok.injEq] at h
          subst h
          simpa [JVal.valid] using dumpsObj_sanitizeDict_valid kvs jo hr
      | error e => rw [hr] at h; simp [Except.map] at h
  | .pyobj fs, j, h => by
      simp only [_sanitize, dumps] at h
      cases hr : dumpsObj (sanitizeFieldsDict fs) with
      | ok jo =>
          rw [hr] at h
          simp only [Except.map, Except.ok.injEq] at h
          subst h
          simpa [JVal.valid] using dumpsObj_sanitizeFields_valid fs jo hr
      | error e => rw [hr] at h; simp [Except.map] at h
  | .pymsg fs convOk rep, j, h => by
      cases convOk with
      | true =>
          simp only [_sanitize, if_true] at h
          simp only [dumps] at h
          cases hr : dumpsObj (sanitizeFieldsDict fs) with
          | ok jo =>
              rw [hr] at h
              simp only [Except.map, Except.ok.injEq] at h
              subst h
              simpa [JVal.valid] using dumpsObj_sanitizeFields_valid fs jo hr
          | error e => rw [hr] at h; simp [Except.map] at h
      | false =>
          simp only [_sanitize, Bool.false_eq_true, if_false] at h
          simp only [dumps, dumpsObj, jsonKeyCoe, bind, Except.bind,
            Except.map, Except.ok.injEq] at h
          subst h
          rfl

theorem dumpsArr_sanitize_valid : ∀ (xs : PyList) (js : JArr),
    dumpsArr (sanitizeList xs) = .ok js → JArr.valid js = true
  | .nil, js, h => by simp_all [sanitizeList, dumpsArr]; exact h ▸ rfl
  | .cons x xs, js, h => by
      simp only [sanitizeList, dumpsArr, bind, Except.bind] at h
      cases hx : dumps (_sanitize x) with
      | ok jx =>
          rw [hx] at h
          cases hxs : dumpsArr (sanitizeList xs) with
          | ok jxs =>
              rw [hxs] at h
              simp only [Except.ok.injEq] at h
              subst h
              simp only [JArr.valid, Bool.and_eq_true]
              exact ⟨dumps_sanitize_valid x jx hx, dumpsArr_sanitize_valid xs jxs hxs⟩
          | error e => rw [hxs] at h; simp at h
      | error e => rw [hx] at h; simp at h

theorem dumpsObj_sanitizeDict_valid : ∀ (kvs : PyDict) (jo : JObj),
    dumpsObj (sanitizeDict kvs) = .ok jo → JObj.valid jo = true
  | .nil, jo, h => by simp_all [sanitizeDict, dumpsObj]; exact h ▸ rfl
  | .cons k v rest, jo, h => by
      simp only [sanitizeDict, dumpsObj, jsonKeyCoe, bind, Except.bind] at h
      cases hv : dumps (_sanitize v) with
      | ok jv =>
          rw [hv] at h
          cases hr : dumpsObj (sanitizeDict rest) with
          | ok jr =>
              rw [hr] at h
              simp only [Except.ok.injEq] at h
              subst h
              simp only [JObj.valid, Bool.and_eq_true]
              exact ⟨dumps_sanitize_valid v jv hv, dumpsObj_sanitizeDict_valid rest jr hr⟩
          | error e => rw [hr] at h; simp at h
      | error e => rw [hv] at h; simp at h

theorem dumpsObj_sanitizeFields_valid : ∀ (fs : PyFields) (jo : JObj),
    dumpsObj (sanitizeFieldsDict fs) = .ok jo → JObj.valid jo = true
  | .nil, jo, h => by simp_all [sanitizeFieldsDict, dumpsObj]; exact h ▸ rfl
  | .cons k v rest, jo, h => by
      simp only [sanitizeFieldsDict, dumpsObj, jsonKeyCoe, bind, Except.bind] at h
      cases hv : dumps (_sanitize v) with
      | ok jv =>
          rw [hv] at h
          cases hr : dumpsObj (sanitizeFieldsDict rest) with
          | ok jr =>
              rw [hr] at h
              simp only [Except.ok.injEq] at h
              subst h
              simp only [JObj.valid, Bool.and_eq_true]
              exact ⟨dumps_sanitize_valid v jv hv, dumpsObj_sanitizeFields_valid rest jr hr⟩
          | error e => rw [hr] at h; simp at h
      | error e => rw [hv] at h; simp at h

end

/-- C1: serialize is total (this model function can only return a
string), and for every input value the returned string is the
rendering of a well-formed JSON tree — either the successful dump of
the sanitized value, or, exactly when the dump raises, the rendering of
the JSON object describing the failure, so the caller always holds a
well-formed line. -/
theorem c1_serialize_total_valid_json (v : PyVal) :
    ∃ j : JVal, JVal.valid j = true ∧ _safe_json_dumps v = renderJ j ∧
      (∀ j0, dumps (_sanitize v) = .ok j0 → j = j0) ∧
      (∀ e, dumps (_sanitize v) = .error e → j = serializationErrorObj e) := by
  cases hd : dumps (_sanitize v) with
  | ok j0 =>
      refine ⟨j0, dumps_sanitize_valid v j0 hd, ?_, ?_, ?_⟩
      · simp [_safe_json_dumps, hd]
      · intro j1 h1; exact Except.ok.inj h1
      · intro e he; simp at he
  | error e =>
      refine ⟨serializationErrorObj e, rfl, ?_, ?_, ?_⟩
      · simp [_safe_json_dumps, hd]
      · intro j1 h1; simp at h1
      · intro e1 he; exact congrArg serializationErrorObj (Except.error.inj he)

theorem c1_witness :
    ∃ j : JVal, JVal.valid j = true ∧
      _safe_json_dumps (.pydict (.cons (.pystr "k") (.pyforeign "weird") .nil))
        = renderJ j ∧
      (∀ j0, dumps (_sanitize (.pydict (.cons (.pystr "k") (.pyforeign "weird") .nil)))
          = .ok j0 → j = j0) ∧
      (∀ e, dumps (_sanitize (.pydict (.cons (.pystr "k") (.pyforeign "weird") .nil)))
          = .error e → j = serializationErrorObj e) :=
  c1_serialize_total_valid_json (.pydict (.cons (.pystr "k") (.pyforeign "weird") .nil))

end MeshBroker
